import Mathlib

/-!
Verification of the polymorphic handler singleton framework of iceoryx
(`iceoryx_hoofs/design_pattern/polymorphic_handler.hpp`).

The header under `src/` declares `Activatable`, the hook contract
`detail::DefaultHooks::onSetAfterFinalize` and the public operations
`get`, `set`, `reset`, `finalize`, `guard` of `PolymorphicHandler`, all
`noexcept`; the member-function bodies live in
`polymorphic_handler.inl` and `static_lifetime_guard.hpp`, which are not
part of the supplied sources.  The operation bodies are therefore
modelled from the specification text, faithful to its words.

Handler instances are identified by natural-number ids; the
registry-owned default instance has id `defaultId`.  The active
reference `m_current` is an `Option Nat` so that a null reference is
representable, and every invocation of the replacement hook
`onSetAfterFinalize(current, attempted)` is recorded in a log so that
"called exactly once per call, with these arguments" is a statement
about the log.
-/

namespace DesignPattern

/-- Modelled from the spec: the `Activatable` binary switch
(`polymorphic_handler.hpp` lines 35-52).  The header declares the
default constructor, `activate`, `deactivate`, `isActive` and the field
`m_active{true}`; the member bodies are not under `src/`.  Contract
(spec section 4.2): `activate()` sets active = true, `deactivate()` sets
active = false, `isActive()` reads the flag; the flag defaults to true. -/
structure Activatable where
  m_active : Bool := true
deriving DecidableEq, Repr

/-- The default constructor `Activatable() = default`: `m_active{true}`. -/
def Activatable.new : Activatable := {}

/-- Modelled from the spec: `activate()` switches on. -/
def Activatable.activate (_ : Activatable) : Activatable :=
  { m_active := true }

/-- Modelled from the spec: `deactivate()` switches off. -/
def Activatable.deactivate (_ : Activatable) : Activatable :=
  { m_active := false }

/-- Modelled from the spec: `isActive()` reads the flag, `const` member. -/
def Activatable.isActive (a : Activatable) : Bool := a.m_active

/-- The three operations of `Activatable`. -/
inductive ActOp where
  | activate
  | deactivate
  | query
deriving DecidableEq, Repr

/-- One `Activatable` operation: resulting object and, for `query`, the
returned flag value. -/
def actStep (a : Activatable) : ActOp → Activatable × Option Bool
  | .activate => (a.activate, none)
  | .deactivate => (a.deactivate, none)
  | .query => (a, some a.isActive)

/-- Id of the registry-owned default instance (`getDefault()`). -/
def defaultId : Nat := 0

/-- Modelled from the spec: the state of
`PolymorphicHandler<Interface, Default, Hooks>` (data model section 3):
`isFinal` is an atomically-updatable boolean, initially false;
`current` is an atomically-updatable reference to the active instance,
initially the default instance.  `hookCalls` records every invocation of
`Hooks::onSetAfterFinalize(currentInstance, newInstance)` as the pair of
the current reference and the attempted instance's id. -/
structure RegistryState where
  m_isFinal : Bool
  m_current : Option Nat
  hookCalls : List (Option Nat × Nat)
deriving DecidableEq, Repr

/-- Modelled from the spec: the state after the private constructor ran
(first access): `m_isFinal{false}`, `current` initially the default
instance, no hook invocation yet. -/
def initialState : RegistryState :=
  { m_isFinal := false, m_current := some defaultId, hookCalls := [] }

/-- Modelled from the spec: `set(handlerGuard)` (spec section 4.4).  If
`isFinal` is false it replaces `current` with the instance derived from
the guard and returns the prior active instance; if `isFinal` is true
the replacement does not occur, instead
`onSetAfterFinalize(current, newInstance)` is invoked, and the function
still returns the previous active instance.  Result: (new state,
returned pointer to the previous instance). -/
def set (s : RegistryState) (newInstance : Nat) : RegistryState × Option Nat :=
  if s.m_isFinal then
    ({ s with hookCalls := s.hookCalls ++ [(s.m_current, newInstance)] }, s.m_current)
  else
    ({ s with m_current := some newInstance }, s.m_current)

/-- Modelled from the spec: `reset()` restores `current` to the default
instance and returns the previous instance, with the same
finalized-state interception via the hook (spec section 4.4). -/
def reset (s : RegistryState) : RegistryState × Option Nat :=
  if s.m_isFinal then
    ({ s with hookCalls := s.hookCalls ++ [(s.m_current, defaultId)] }, s.m_current)
  else
    ({ s with m_current := some defaultId }, s.m_current)

/-- Modelled from the spec: `finalize()` transitions `isFinal` to true;
subsequent calls are no-ops (spec section 4.4). -/
def finalize (s : RegistryState) : RegistryState :=
  { s with m_isFinal := true }

/-- Modelled from the spec: `get()` returns the currently active
instance, with no side effect (spec section 4.4). -/
def get (s : RegistryState) : Option Nat := s.m_current

/-- A public registry operation. -/
inductive Op where
  | opGet
  | opSet (newInstance : Nat)
  | opReset
  | opFinalize
deriving DecidableEq, Repr

/-- State transition of one public operation (return values dropped). -/
def step (s : RegistryState) : Op → RegistryState
  | .opGet => s
  | .opSet n => (set s n).1
  | .opReset => (reset s).1
  | .opFinalize => finalize s

/-- Run a sequence of public operations. -/
def run (s : RegistryState) (ops : List Op) : RegistryState :=
  ops.foldl step s

/-- A state reachable from the freshly constructed registry by some
sequence of public operations. -/
def Reachable (s : RegistryState) : Prop :=
  ∃ ops : List Op, run initialState ops = s

/-- State of the lazy exactly-once construction behind
`StaticLifetimeGuard<T>`: the cached singleton instance, if already
constructed. -/
structure GuardState (T : Type) where
  cached : Option T
deriving Repr

/-- Modelled from the spec: the `StaticLifetimeGuard<T>::instance()`
request (spec section 4.1); the implementation file is not under `src/`.
It returns the cached singleton if one exists; otherwise it runs the
constructor, caching the result on success, and on failure propagates
the failure to the caller without caching a poisoned state, so that
subsequent callers retry the construction. -/
def lazyGet {T : Type} (ctor : Unit → Except String T) (s : GuardState T) :
    GuardState T × Except String T :=
  match s.cached with
  | some t => (s, .ok t)
  | none =>
    match ctor () with
    | .ok t => ({ cached := some t }, .ok t)
    | .error e => (s, .error e)

/-- `lazyGet` instrumented with a counter of constructor invocations
that ran, to state exactly-once construction. -/
def lazyGetCount {T : Type} (ctor : Unit → Except String T)
    (s : GuardState T × Nat) : (GuardState T × Nat) × Except String T :=
  match s.1.cached with
  | some t => (s, .ok t)
  | none =>
    match ctor () with
    | .ok t => (({ cached := some t }, s.2 + 1), .ok t)
    | .error e => ((s.1, s.2 + 1), .error e)

/-- State after `k` successive singleton accesses starting from the
fresh, un-constructed state. -/
def runAccesses {T : Type} (ctor : Unit → Except String T) : Nat → GuardState T × Nat
  | 0 => ({ cached := none }, 0)
  | k + 1 => (lazyGetCount ctor (runAccesses ctor k)).1

/-- `get()` with the one structural failure the source could exhibit
made explicit: `get` returns `*getCurrent()`, a dereference of the
atomic `m_current` pointer, which faults if that pointer is null. -/
def getE (s : RegistryState) : Except Unit (RegistryState × Nat) :=
  match s.m_current with
  | some i => .ok (s, i)
  | none => .error ()

/-- `set` with the structural failure made explicit: in the finalized
branch the hook receives `*getCurrent()` by reference, a dereference
that faults if `m_current` is null. -/
def setE (s : RegistryState) (newInstance : Nat) :
    Except Unit (RegistryState × Option Nat) :=
  if s.m_isFinal then
    match s.m_current with
    | some _ => .ok (set s newInstance)
    | none => .error ()
  else
    .ok (set s newInstance)

/-- `reset` with the structural failure made explicit, as for `setE`. -/
def resetE (s : RegistryState) : Except Unit (RegistryState × Option Nat) :=
  if s.m_isFinal then
    match s.m_current with
    | some _ => .ok (reset s)
    | none => .error ()
  else
    .ok (reset s)

/-- One public operation under the failure-aware semantics. -/
def stepE (s : RegistryState) : Op → Except Unit RegistryState
  | .opGet => (getE s).map (·.1)
  | .opSet n => (setE s n).map (·.1)
  | .opReset => (resetE s).map (·.1)
  | .opFinalize => .ok (finalize s)

/- Helper lemmas shared by the claim theorems. -/

theorem set_fst_isFinal (s : RegistryState) (n : Nat) :
    (set s n).1.m_isFinal = s.m_isFinal := by
  unfold set; split <;> rfl

theorem reset_fst_isFinal (s : RegistryState) :
    (reset s).1.m_isFinal = s.m_isFinal := by
  unfold reset; split <;> rfl

theorem step_isFinal_mono (s : RegistryState) (op : Op)
    (h : s.m_isFinal = true) : (step s op).m_isFinal = true := by
  cases op with
  | opGet => exact h
  | opSet n => rw [step, set_fst_isFinal]; exact h
  | opReset => rw [step, reset_fst_isFinal]; exact h
  | opFinalize => rfl

theorem run_isFinal_mono (s : RegistryState) (ops : List Op)
    (h : s.m_isFinal = true) : (run s ops).m_isFinal = true := by
  induction ops generalizing s with
  | nil => exact h
  | cons op rest ih => exact ih (step s op) (step_isFinal_mono s op h)

theorem step_current_isSome (s : RegistryState) (op : Op)
    (h : ∃ i, s.m_current = some i) :
    ∃ i, (step s op).m_current = some i := by
  cases op with
  | opGet => exact h
  | opSet n =>
    rw [step]; unfold set; split
    · exact h
    · exact ⟨n, rfl⟩
  | opReset =>
    rw [step]; unfold reset; split
    · exact h
    · exact ⟨defaultId, rfl⟩
  | opFinalize => exact h

theorem run_current_isSome (s : RegistryState) (ops : List Op)
    (h : ∃ i, s.m_current = some i) :
    ∃ i, (run s ops).m_current = some i := by
  induction ops generalizing s with
  | nil => exact h
  | cons op rest ih => exact ih (step s op) (step_current_isSome s op h)

theorem reachable_current_isSome (s : RegistryState) (h : Reachable s) :
    ∃ i, s.m_current = some i := by
  obtain ⟨ops, hops⟩ := h
  have := run_current_isSome initialState ops ⟨defaultId, rfl⟩
  rwa [hops] at this

theorem run_current_of_no_replacement (s : RegistryState) (ops : List Op)
    (h : ∀ op ∈ ops, op = Op.opGet ∨ op = Op.opFinalize) :
    (run s ops).m_current = s.m_current := by
  induction ops generalizing s with
  | nil => rfl
  | cons op rest ih =>
    have hop := h op (List.mem_cons_self op rest)
    have hrest : ∀ o ∈ rest, o = Op.opGet ∨ o = Op.opFinalize :=
      fun o ho => h o (List.mem_cons_of_mem op ho)
    have hstep : (step s op).m_current = s.m_current := by
      rcases hop with h1 | h1 <;> subst h1 <;> rfl
    rw [run, List.foldl_cons, ← run, ih (step s op) hrest, hstep]

theorem sets_fold_not_final (ns : List Nat) :
    (ns.foldl (fun t n => (set t n).1) initialState).m_isFinal = false := by
  suffices h : ∀ t : RegistryState, t.m_isFinal = false →
      (ns.foldl (fun t n => (set t n).1) t).m_isFinal = false from
    h initialState rfl
  induction ns with
  | nil => exact fun t ht => ht
  | cons n rest ih =>
    intro t ht
    rw [List.foldl_cons]
    exact ih (set t n).1 ((set_fst_isFinal t n).trans ht)

/-- C1: once `isFinal` is true, every `set(handlerGuard)` and every
`reset()` leaves the active instance `current` unchanged, invokes
`Hooks::onSetAfterFinalize` exactly once per call with the currently
active instance and the requested new instance as arguments, and still
returns a pointer to the previous (unchanged) active instance. -/
theorem setAfterFinalize_intercepts (s : RegistryState) (n : Nat)
    (h : s.m_isFinal = true) :
    (set s n).1.m_current = s.m_current ∧
    (set s n).2 = s.m_current ∧
    (set s n).1.hookCalls = s.hookCalls ++ [(s.m_current, n)] ∧
    (reset s).1.m_current = s.m_current ∧
    (reset s).2 = s.m_current ∧
    (reset s).1.hookCalls = s.hookCalls ++ [(s.m_current, defaultId)] := by
  simp [set, reset, h]

/-- Witness for C1 at the finalized fresh registry and instance id 5. -/
theorem setAfterFinalize_intercepts_witness :
    (finalize initialState).m_isFinal = true ∧
    ((set (finalize initialState) 5).1.m_current = (finalize initialState).m_current ∧
     (set (finalize initialState) 5).2 = (finalize initialState).m_current ∧
     (set (finalize initialState) 5).1.hookCalls =
       (finalize initialState).hookCalls ++ [((finalize initialState).m_current, 5)] ∧
     (reset (finalize initialState)).1.m_current = (finalize initialState).m_current ∧
     (reset (finalize initialState)).2 = (finalize initialState).m_current ∧
     (reset (finalize initialState)).1.hookCalls =
       (finalize initialState).hookCalls ++ [((finalize initialState).m_current, defaultId)]) :=
  ⟨rfl, setAfterFinalize_intercepts (finalize initialState) 5 rfl⟩

/-- C2: while `isFinal` is false, `set` replaces `current` with the
guarded instance and returns the instance active immediately before the
call; afterwards every `get()` returns the newly set instance until the
next replacement (here: across any run of `get`/`finalize` operations);
in particular with `i1` active, `set i2` returns `i1` and a following
`set i1` returns `i2`. -/
theorem set_replaces_and_returns_previous (s : RegistryState) (n : Nat)
    (h : s.m_isFinal = false) :
    (set s n).1.m_current = some n ∧
    (set s n).2 = s.m_current ∧
    get (set s n).1 = some n ∧
    (∀ ops : List Op, (∀ op ∈ ops, op = Op.opGet ∨ op = Op.opFinalize) →
      get (run (set s n).1 ops) = some n) ∧
    (∀ i1 i2 : Nat, s.m_current = some i1 →
      (set s i2).2 = some i1 ∧ (set (set s i2).1 i1).2 = some i2) := by
  refine ⟨by simp [set, h], by simp [set, h], by simp [set, get, h], ?_, ?_⟩
  · intro ops hops
    rw [get, run_current_of_no_replacement _ ops hops]
    simp [set, h]
  · intro i1 i2 h1
    simp [set, h, h1]

/-- Witness for C2 at the fresh registry with instance ids 7, 1, 2. -/
theorem set_replaces_and_returns_previous_witness :
    initialState.m_isFinal = false ∧
    ((set initialState 7).1.m_current = some 7 ∧
     (set initialState 7).2 = initialState.m_current ∧
     get (set initialState 7).1 = some 7 ∧
     (∀ ops : List Op, (∀ op ∈ ops, op = Op.opGet ∨ op = Op.opFinalize) →
       get (run (set initialState 7).1 ops) = some 7) ∧
     (∀ i1 i2 : Nat, initialState.m_current = some i1 →
       (set initialState i2).2 = some i1 ∧
       (set (set initialState i2).1 i1).2 = some i2)) :=
  ⟨rfl, set_replaces_and_returns_previous initialState 7 rfl⟩

/-- C3: `isFinal` starts false, `finalize()` transitions it to true,
repeating `finalize()` is a no-op (idempotent, not an error), and once
`isFinal` is true no sequence of public operations ever makes it false
again. -/
theorem finalize_is_one_way (s : RegistryState) (ops : List Op) :
    initialState.m_isFinal = false ∧
    (finalize s).m_isFinal = true ∧
    finalize (finalize s) = finalize s ∧
    (s.m_isFinal = true → (run s ops).m_isFinal = true) := by
  exact ⟨rfl, rfl, rfl, fun h => run_isFinal_mono s ops h⟩

/-- Witness for C3 at a finalized fresh registry running one of each
operation. -/
theorem finalize_is_one_way_witness :
    initialState.m_isFinal = false ∧
    (finalize (finalize initialState)).m_isFinal = true ∧
    finalize (finalize (finalize initialState)) = finalize (finalize initialState) ∧
    ((finalize initialState).m_isFinal = true →
      (run (finalize initialState)
        [Op.opGet, Op.opSet 3, Op.opReset, Op.opFinalize]).m_isFinal = true) :=
  finalize_is_one_way (finalize initialState)
    [Op.opGet, Op.opSet 3, Op.opReset, Op.opFinalize]

/-- C4: in every reachable state `current` refers to an instance
(initially the default instance), `get()` returns exactly that
instance, never a null reference, and `get` has no side effect on the
registry state. -/
theorem get_returns_live_current (s : RegistryState) (h : Reachable s) :
    (∃ i : Nat, s.m_current = some i ∧ get s = some i) ∧
    initialState.m_current = some defaultId ∧
    step s Op.opGet = s := by
  obtain ⟨i, hi⟩ := reachable_current_isSome s h
  exact ⟨⟨i, hi, hi⟩, rfl, rfl⟩

/-- Witness for C4 at a reachable state produced by two replacements. -/
theorem get_returns_live_current_witness :
    Reachable (run initialState [Op.opSet 4, Op.opReset]) ∧
    ((∃ i : Nat, (run initialState [Op.opSet 4, Op.opReset]).m_current = some i ∧
        get (run initialState [Op.opSet 4, Op.opReset]) = some i) ∧
     initialState.m_current = some defaultId ∧
     step (run initialState [Op.opSet 4, Op.opReset]) Op.opGet =
       run initialState [Op.opSet 4, Op.opReset]) :=
  ⟨⟨[Op.opSet 4, Op.opReset], rfl⟩,
   get_returns_live_current (run initialState [Op.opSet 4, Op.opReset])
     ⟨[Op.opSet 4, Op.opReset], rfl⟩⟩

/-- C5: `reset()` is equivalent to `set()` with the default instance's
guard: not finalized, it makes `current` the default instance so `get`
agrees with a fresh registry's `get` (also after any number of `set`
calls); finalized, it is intercepted by the hook exactly as `set` is. -/
theorem reset_equiv_set_default (s : RegistryState) :
    reset s = set s defaultId ∧
    (s.m_isFinal = false →
      (reset s).1.m_current = some defaultId ∧ get (reset s).1 = get initialState) ∧
    (s.m_isFinal = true →
      (reset s).1.m_current = s.m_current ∧
      (reset s).1.hookCalls = s.hookCalls ++ [(s.m_current, defaultId)] ∧
      (reset s).2 = s.m_current) ∧
    (∀ ns : List Nat,
      get (reset (ns.foldl (fun t n => (set t n).1) initialState)).1 = get initialState) := by
  refine ⟨?_, ?_, ?_, ?_⟩
  · by_cases h : s.m_isFinal <;> simp [reset, set, h]
  · intro h; simp [reset, get, h, initialState]
  · intro h; simp [reset, h]
  · intro ns
    have h := sets_fold_not_final ns
    simp [reset, get, h, show initialState.m_current = some defaultId from rfl]

/-- Witness for C5 at a registry that replaced the default with id 9. -/
theorem reset_equiv_set_default_witness :
    reset (set initialState 9).1 = set (set initialState 9).1 defaultId ∧
    ((set initialState 9).1.m_isFinal = false →
      (reset (set initialState 9).1).1.m_current = some defaultId ∧
      get (reset (set initialState 9).1).1 = get initialState) ∧
    ((set initialState 9).1.m_isFinal = true →
      (reset (set initialState 9).1).1.m_current = (set initialState 9).1.m_current ∧
      (reset (set initialState 9).1).1.hookCalls =
        (set initialState 9).1.hookCalls ++ [((set initialState 9).1.m_current, defaultId)] ∧
      (reset (set initialState 9).1).2 = (set initialState 9).1.m_current) ∧
    (∀ ns : List Nat,
      get (reset (ns.foldl (fun t n => (set t n).1) initialState)).1 = get initialState) :=
  reset_equiv_set_default (set initialState 9).1

/-- C6: a newly constructed `Activatable` is active; `activate()` makes
it active, `deactivate()` makes it inactive; `isActive()` returns the
current flag and modifies nothing (the `query` operation leaves the
object unchanged), so only `activate`/`deactivate` change the flag. -/
theorem activatable_contract :
    Activatable.new.isActive = true ∧
    (∀ a : Activatable, a.activate.isActive = true) ∧
    (∀ a : Activatable, a.deactivate.isActive = false) ∧
    (∀ a : Activatable, a.isActive = a.m_active) ∧
    (∀ a : Activatable,
      (actStep a ActOp.query).1 = a ∧ (actStep a ActOp.query).2 = some a.isActive) :=
  ⟨rfl, fun _ => rfl, fun _ => rfl, fun _ => rfl, fun _ => ⟨rfl, rfl⟩⟩

/-- C7: a failing singleton construction is propagated to the first
caller that triggered it, no poisoned state is cached, and a subsequent
caller retries the construction (succeeding if the constructor now
succeeds). -/
theorem construction_failure_retries {T : Type}
    (ctorFail ctorOk : Unit → Except String T) (e : String) (t : T)
    (hf : ctorFail () = .error e) (ho : ctorOk () = .ok t) :
    (lazyGet ctorFail ({ cached := none } : GuardState T)).2 = .error e ∧
    (lazyGet ctorFail ({ cached := none } : GuardState T)).1.cached = none ∧
    (lazyGet ctorOk (lazyGet ctorFail ({ cached := none } : GuardState T)).1).2 = .ok t := by
  simp [lazyGet, hf, ho]

/-- Constructor that fails, for the C7 witness. -/
def failCtor : Unit → Except String Nat := fun _ => .error "fail"

/-- Constructor that succeeds with 7, for the C7 witness. -/
def okCtor : Unit → Except String Nat := fun _ => .ok 7

/-- Witness for C7: a failing then a succeeding construction. -/
theorem construction_failure_retries_witness :
    failCtor () = .error "fail" ∧ okCtor () = .ok 7 ∧
    ((lazyGet failCtor ({ cached := none } : GuardState Nat)).2 = .error "fail" ∧
     (lazyGet failCtor ({ cached := none } : GuardState Nat)).1.cached = none ∧
     (lazyGet okCtor (lazyGet failCtor ({ cached := none } : GuardState Nat)).1).2 = .ok 7) :=
  ⟨rfl, rfl, construction_failure_retries failCtor okCtor "fail" 7 rfl rfl⟩

/-- C9: every public registry operation, run in the failure-aware
semantics on any reachable state, returns normally (never an
exceptional result) with the plain-semantics result; the `Activatable`
operations are total functions on the whole state space. -/
theorem public_ops_noexcept (s : RegistryState) (h : Reachable s) (op : Op) :
    stepE s op = .ok (step s op) ∧
    (∀ a : Activatable, ∀ aop : ActOp,
      ∃ r : Activatable × Option Bool, actStep a aop = r) := by
  obtain ⟨i, hi⟩ := reachable_current_isSome s h
  refine ⟨?_, fun a aop => ⟨actStep a aop, rfl⟩⟩
  by_cases hf : s.m_isFinal <;> cases op <;>
    simp [stepE, getE, setE, resetE, step, Except.map, hi, hf]

/-- Witness for C9: `reset` on a finalized registry returns normally. -/
theorem public_ops_noexcept_witness :
    Reachable (finalize initialState) ∧
    (stepE (finalize initialState) Op.opReset =
       .ok (step (finalize initialState) Op.opReset) ∧
     (∀ a : Activatable, ∀ aop : ActOp,
       ∃ r : Activatable × Option Bool, actStep a aop = r)) :=
  ⟨⟨[Op.opFinalize], rfl⟩,
   public_ops_noexcept (finalize initialState) ⟨[Op.opFinalize], rfl⟩ Op.opReset⟩

theorem runAccesses_of_ok {T : Type} (ctor : Unit → Except String T) (t : T)
    (ho : ctor () = .ok t) (k : Nat) (hk : 1 ≤ k) :
    runAccesses ctor k = ({ cached := some t }, 1) := by
  induction k with
  | zero => exact absurd hk (by simp)
  | succ k ih =>
    cases Nat.eq_zero_or_pos k with
    | inl h0 => subst h0; simp [runAccesses, lazyGetCount, ho]
    | inr hpos =>
      rw [runAccesses, ih hpos]
      simp [lazyGetCount]

/-- C10: the singleton instance is constructed at most once (exactly
once over any positive number of accesses), every access yields that
same cached instance, and further accesses do not change the shared
state, so all public operations act on that single shared instance. -/
theorem singleton_unique_instance {T : Type} (ctor : Unit → Except String T)
    (t : T) (ho : ctor () = .ok t) (k : Nat) (hk : 1 ≤ k) :
    (runAccesses ctor k).1.cached = some t ∧
    (runAccesses ctor k).2 = 1 ∧
    (lazyGetCount ctor (runAccesses ctor k)).2 = .ok t ∧
    (lazyGetCount ctor (runAccesses ctor k)).1 = runAccesses ctor k := by
  have h := runAccesses_of_ok ctor t ho k hk
  rw [h]
  simp [lazyGetCount]

/-- Constructor that succeeds with 42, for the C10 witness. -/
def regCtor : Unit → Except String Nat := fun _ => .ok 42

/-- Witness for C10: three accesses construct the singleton once. -/
theorem singleton_unique_instance_witness :
    regCtor () = .ok 42 ∧ 1 ≤ 3 ∧
    ((runAccesses regCtor 3).1.cached = some 42 ∧
     (runAccesses regCtor 3).2 = 1 ∧
     (lazyGetCount regCtor (runAccesses regCtor 3)).2 = .ok 42 ∧
     (lazyGetCount regCtor (runAccesses regCtor 3)).1 = runAccesses regCtor 3) :=
  ⟨rfl, by decide, singleton_unique_instance regCtor 42 rfl 3 (by decide)⟩

end DesignPattern
